import Mathlib

/-!
Shallow embedding of `collections/nemo_nlp/nemo_nlp/data/datasets/joint_intent_slot.py`
(the feature builder `get_features` and the `BertJointIntentSlotDataset` constructor),
together with theorems settling the specification claims about it.

Conventions of the embedding:
* Python `int` values (token ids, slot ids, intent ids) are modelled as `Int`;
  attention-mask and segment-id entries (always the literals `0`/`1` in the source)
  as `Nat`; the first-subtoken mask as `Bool`.
* Python exceptions are modelled with `Option`/`Except`: a `none`/`.error` result
  stands for a raised exception.
* Logging (`logger.info`, `get_stats`, `get_label_stats`) is pure I/O with no
  influence on the returned values and is not modelled.
-/

namespace NemoNLP

/-! ### Python string helpers

`query.strip().split()` splits a string on runs of whitespace, discarding empty
pieces. We implement it by direct recursion on the character list so that every
definition reduces inside the kernel. -/

/-- One pass of Python `str.strip().split()`: walk the characters, accumulating
the current word (in reverse) in `acc`; whitespace flushes the accumulator. -/
def pySplitAux : List Char → List Char → List String
  | [], acc => if acc.isEmpty then [] else [String.mk acc.reverse]
  | c :: cs, acc =>
    if c.isWhitespace then
      if acc.isEmpty then pySplitAux cs [] else String.mk acc.reverse :: pySplitAux cs []
    else pySplitAux cs (c :: acc)

/-- Python `s.strip().split()`: the whitespace-separated words of `s`. -/
def pyStripSplit (s : String) : List String :=
  pySplitAux s.data []

/-- Python `' '.join(parts)`. -/
def pyJoinSpace : List String → String
  | [] => ""
  | [w] => w
  | w :: ws => w ++ " " ++ pyJoinSpace ws

/-- Digit-string to number, `none` on any non-digit character. -/
def digitsToNatAux : List Char → Nat → Option Nat
  | [], acc => some acc
  | c :: cs, acc =>
    if c.isDigit then digitsToNatAux cs (acc * 10 + (c.toNat - 48)) else none

/-- Python `int(s)` on a decimal literal with an optional sign; `none` models the
`ValueError` raised on malformed input. (Surrounding whitespace and underscore
digit separators, which CPython also accepts, are not modelled; the files this
module reads contain plain decimal tokens.) -/
def pyInt (s : String) : Option Int :=
  match s.data with
  | [] => none
  | '-' :: ds =>
    if ds.isEmpty then none else (digitsToNatAux ds 0).map (fun n => -(n : Int))
  | '+' :: ds =>
    if ds.isEmpty then none else (digitsToNatAux ds 0).map (fun n => (n : Int))
  | ds => (digitsToNatAux ds 0).map (fun n => (n : Int))

/-- Python `max(xs)` on a list of naturals: `none` models the `ValueError`
raised by `max` on an empty sequence. -/
def pyMax? : List Nat → Option Nat
  | [] => none
  | x :: xs => some (xs.foldl max x)

/-- Python list slice `xs[i:]` where `i` may be negative (counting from the
end, clamped to the list). For `i < 0` it keeps the last `min |i| len` elements;
for `i ≥ 0` it drops the first `i`. -/
def pySliceFrom (xs : List α) (i : Int) : List α :=
  if i < 0 then xs.drop (xs.length - min xs.length i.natAbs) else xs.drop i.toNat

/-- The Python list comprehension `[f x for x in xs]` where `f` may raise:
`none` as soon as any element fails. -/
def mapOption (f : α → Option β) : List α → Option (List β)
  | [] => some []
  | x :: xs =>
    match f x, mapOption f xs with
    | some y, some ys => some (y :: ys)
    | _, _ => none

/-! ### The tokenizer capability consumed by `get_features` -/

/-- The tokenizer interface used by the source: `tokenizer.tokenize(word)` and
`tokenizer._convert_token_to_id(subtoken)`. -/
structure Tokenizer where
  tokenize : String → List String
  convert_token_to_id : String → Int

/-- The start-of-sequence marker prepended to every subtoken sequence. -/
def CLS : String := "[CLS]"

/-- The end-of-sequence marker appended to every subtoken sequence. -/
def SEP : String := "[SEP]"

/-! ### First loop of `get_features` (source lines 78–101), per query

For each query the source builds, in lock-step over the words:
* `subtokens  = ['[CLS]'] + concat of tokenizer.tokenize(word) + ['[SEP]']`
* `slot_mask  = [True]    + per word (True then (len(word_tokens)-1) Falses) + [True]`
* `slots      = [pad]     + per word (raw_slots[i][j] repeated len(word_tokens) times) + [pad]`

Note `[False] * (len(word_tokens) - 1)` is empty in Python when a word produces
zero subtokens, exactly like `List.replicate (n - 1)` with `Nat` subtraction. -/

/-- Subtoken sequence of one query (source lines 80, 85–86, 93). -/
def query_subtokens (tk : Tokenizer) (words : List String) : List String :=
  CLS :: (words.map tk.tokenize).flatten ++ [SEP]

/-- The slot-mask entries one word contributes (source lines 87–88):
`True` then `(n-1)` times `False`, where `n` is its subtoken count. -/
def word_slot_mask (n : Nat) : List Bool :=
  true :: List.replicate (n - 1) false

/-- First-subtoken mask of one query (source lines 81, 87–88, 94). -/
def query_slot_mask (tk : Tokenizer) (words : List String) : List Bool :=
  (true :: (words.map (fun w => word_slot_mask (tk.tokenize w).length)).flatten) ++ [true]

/-- The word-by-word slot broadcast (source line 90:
`slots.extend([raw_slots[i][j]] * len(word_tokens))`). The source indexes
`raw_slots[i][j]` for every word index `j`, which presumes at least as many
labels as words (an `IndexError` otherwise); we walk the two lists in
lock-step, which agrees with the source under that caller contract. -/
def word_slot_broadcast (tk : Tokenizer) : List String → List Int → List Int
  | w :: ws, l :: ls => List.replicate (tk.tokenize w).length l ++ word_slot_broadcast tk ws ls
  | _, _ => []

/-- Subtoken-aligned slot sequence of one query (source lines 83, 90, 96). -/
def query_slots (tk : Tokenizer) (pad_label : Int) (words : List String) (labels : List Int) :
    List Int :=
  (pad_label :: word_slot_broadcast tk words labels) ++ [pad_label]

/-! ### Second loop of `get_features` (source lines 106–132), per example

Writing `L` for the reassigned `max_seq_length` and `st` for the example's raw
subtoken list, the loop
* truncates, when `len(st) > L`, each of `subtokens`, `all_input_masks[i]`,
  `all_slot_masks[i]` (and `all_slots[i]` when labelled) to
  `[head] + lst[-L+1:]`;
* appends `[convert(t) for t in subtokens]` to `all_input_ids` and — a second
  time for this example — `[1]*len(subtokens)` to `all_input_masks`;
* pads, when `len(subtokens) < L`, each of the index-`i` entries on the right
  with `extra = L - len(subtokens)` filler values;
* appends `[0]*L` to `all_segment_ids`.

Each index-`i` entry is finalized exactly during iteration `i` and never
touched afterwards, while the per-iteration `append`s only grow the tails of
`all_input_ids`, `all_input_masks` and `all_segment_ids`; the loop is therefore
embedded as independent per-example finalization functions, with the second
(spurious) block of `all_input_masks` entries appended after the first. -/

/-- The truncation pattern `[head] + xs[-L+1:]` of source lines 108–114. -/
def truncTail (L : Nat) (head : α) (xs : List α) : List α :=
  head :: pySliceFrom xs (1 - (L : Int))

/-- Post-truncation subtoken list: source line 108 guarded by line 107. -/
def trunc_subtokens (L : Nat) (st : List String) : List String :=
  if st.length > L then truncTail L CLS st else st

/-- Right padding of source lines 123–131: `xs + [v] * (L - stLen)` when
`stLen < L`, where `stLen` is the length of the post-truncation subtoken
list (the pad amount is driven by the subtokens, not by `xs` itself). -/
def pad_to (L : Nat) (v : α) (stLen : Nat) (xs : List α) : List α :=
  if stLen < L then xs ++ List.replicate (L - stLen) v else xs

/-- Truncation (lines 107–114) then padding (lines 123–131) of one parallel
list `xs` whose truncation head is `head` and padding filler is `v`, for an
example with raw subtoken list `st`. -/
def finalize_list (L : Nat) (head v : α) (st : List String) (xs : List α) : List α :=
  pad_to L v (trunc_subtokens L st).length
    (if st.length > L then truncTail L head xs else xs)

/-- Final `all_input_ids[i]`: ids of the post-truncation subtokens
(line 119), zero-padded (line 125). -/
def final_input_ids (tk : Tokenizer) (L : Nat) (st : List String) : List Int :=
  pad_to L 0 (trunc_subtokens L st).length ((trunc_subtokens L st).map tk.convert_token_to_id)

/-- Final `all_input_masks[i]` (first block): `[1]*len(subtokens)` from the
first loop (line 97), truncated (line 109), zero-padded (line 127). -/
def final_input_mask (L : Nat) (st : List String) : List Nat :=
  finalize_list L 1 0 st (List.replicate st.length 1)

/-- Final `all_slot_masks[i]`: truncated (lines 110–111) and `False`-padded
(line 126). -/
def final_slot_mask (L : Nat) (st : List String) (sm : List Bool) : List Bool :=
  finalize_list L true false st sm

/-- Final `all_slots[i]`: truncated (line 114) and pad-label-padded
(line 130). -/
def final_slots (L : Nat) (pad_label : Int) (st : List String) (sl : List Int) : List Int :=
  finalize_list L pad_label pad_label st sl

/-- The tuple returned by `get_features` (source lines 136–140). -/
structure Features where
  all_input_ids : List (List Int)
  all_segment_ids : List (List Nat)
  all_input_masks : List (List Nat)
  all_slot_masks : List (List Bool)
  all_slots : List (List Int)
deriving DecidableEq

/-- `get_features(queries, max_seq_length, tokenizer, pad_label, raw_slots)`
(source lines 63–140). `none` models the `ValueError` raised by
`max(sent_lengths)` on an empty batch (line 103). `raw_slots = none` is the
unlabelled call (`with_label = False`), in which case `all_slots` stays `[]`.

The returned `all_input_masks` deliberately reproduces the source exactly:
its first `N` entries are the per-example masks finalized in place, and —
because line 120 `append`s instead of assigning — a second block of `N`
entries `[1]*len(post-truncation subtokens)` follows them. -/
def get_features (queries : List String) (max_seq_length : Nat) (tk : Tokenizer)
    (pad_label : Int) (raw_slots : Option (List (List Int))) : Option Features :=
  let wordss := queries.map pyStripSplit
  let all_subtokens := wordss.map (query_subtokens tk)
  let sent_lengths := all_subtokens.map List.length
  match pyMax? sent_lengths with
  | none => none
  | some mx =>
    let L := min max_seq_length mx
    some
      { all_input_ids := all_subtokens.map (final_input_ids tk L)
        all_segment_ids := all_subtokens.map (fun _ => List.replicate L 0)
        all_input_masks := all_subtokens.map (final_input_mask L)
          ++ all_subtokens.map (fun st => List.replicate (trunc_subtokens L st).length 1)
        all_slot_masks := wordss.map
          (fun ws => final_slot_mask L (query_subtokens tk ws) (query_slot_mask tk ws))
        all_slots :=
          match raw_slots with
          | none => []
          | some rs => (wordss.zip rs).map
              (fun p => final_slots L pad_label (query_subtokens tk p.1)
                          (query_slots tk pad_label p.1 p.2)) }

/-! ### `BertJointIntentSlotDataset.__init__` (source lines 165–211) -/

/-- Per-line parse of the input file (source lines 191–193): whitespace-split,
the last token is the integer intent id, the rest rejoined with single spaces
form the query. `none` models `IndexError` on an empty line and `ValueError`
from `int`. -/
def parse_input_line (line : String) : Option (String × Int) :=
  let parts := pyStripSplit line
  match parts.getLast? with
  | none => none
  | some lastPart =>
    (pyInt lastPart).map (fun intent => (pyJoinSpace parts.dropLast, intent))

/-- Per-line parse of the slot file (source line 190): whitespace-separated
integer slot ids. -/
def parse_slot_line (line : String) : Option (List Int) :=
  mapOption pyInt (pyStripSplit line)

/-- Parse of one paired `(slot_line, input_line)` record, in the order the
source's loop body evaluates them (slots first, then intent and query). -/
def parse_example (p : String × String) : Option (List Int × String × Int) :=
  (parse_slot_line p.1).bind fun sl =>
    (parse_input_line p.2).map fun qi => (sl, qi.1, qi.2)

/-- The distinct failures `__init__` can raise. -/
inductive InitError where
  /-- `ValueError("num_samples has to be positive")`, source lines 173–174. -/
  | numSamplesZero
  /-- the `assert len(slot_lines) == len(input_lines)`, source line 182. -/
  | lineCountMismatch
  /-- `ValueError`/`IndexError` from parsing a slot or input line. -/
  | parseFailure
  /-- the `ValueError` from `max` inside `get_features` on an empty batch. -/
  | emptyBatch
deriving DecidableEq

/-- The state stored by `BertJointIntentSlotDataset.__init__`. -/
structure BertJointIntentSlotDataset where
  all_input_ids : List (List Int)
  all_segment_ids : List (List Nat)
  all_input_masks : List (List Nat)
  all_slot_masks : List (List Bool)
  all_slots : List (List Int)
  all_intents : List Int
deriving DecidableEq

/-- `BertJointIntentSlotDataset.__init__` (source lines 165–211), with the two
files replaced by their line lists (`input_lines` including the header line
that `readlines()[1:]` discards) and `random.shuffle` replaced by an arbitrary
reordering oracle `shuffleOracle`, applied exactly when the source applies
`random.shuffle` (`if shuffle or num_samples > 0`). The `num_samples == 0`
check is the first statement of `__init__`, before either file is opened;
correspondingly the embedding returns `.error .numSamplesZero` without
inspecting any other argument. Statistics side effects (lines 205–211) are
not modelled. -/
def BertJointIntentSlotDataset.build (input_lines slot_lines : List String)
    (max_seq_length : Nat) (tk : Tokenizer) (num_samples : Int) (shuffle : Bool)
    (pad_label : Int) (shuffleOracle : List (String × String) → List (String × String)) :
    Except InitError BertJointIntentSlotDataset :=
  if num_samples = 0 then .error .numSamplesZero
  else
    let input_rest := input_lines.drop 1
    if slot_lines.length ≠ input_rest.length then .error .lineCountMismatch
    else
      let dataset := slot_lines.zip input_rest
      let dataset := if shuffle = true ∨ num_samples > 0 then shuffleOracle dataset else dataset
      let dataset := if num_samples > 0 then dataset.take num_samples.toNat else dataset
      match mapOption parse_example dataset with
      | none => .error .parseFailure
      | some parsed =>
        match get_features (parsed.map fun t => t.2.1) max_seq_length tk pad_label
            (some (parsed.map fun t => t.1)) with
        | none => .error .emptyBatch
        | some f =>
          .ok { all_input_ids := f.all_input_ids
                all_segment_ids := f.all_segment_ids
                all_input_masks := f.all_input_masks
                all_slot_masks := f.all_slot_masks
                all_slots := f.all_slots
                all_intents := parsed.map fun t => t.2.2 }

/-! ### Concrete instances used in witnesses and counterexamples -/

/-- Position of the first subtoken of word `j` inside a query's bracketed
subtoken sequence: `1` for the start marker plus the subtoken counts of the
words before `j`. -/
def word_starts (tk : Tokenizer) (ws : List String) (j : Nat) : Nat :=
  1 + ((ws.take j).map (fun w => (tk.tokenize w).length)).sum

/-- A tokenizer that keeps every word as a single subtoken and maps a token to
its character count. -/
def tkLen : Tokenizer :=
  { tokenize := fun w => [w]
    convert_token_to_id := fun s => Int.ofNat s.data.length }

/-- A tokenizer that erases the word `"z"` (zero subtokens) and keeps every
other word as one subtoken. -/
def tkZero : Tokenizer :=
  { tokenize := fun w => if w = "z" then [] else [w]
    convert_token_to_id := fun s => Int.ofNat s.data.length }

/-- The value of `get_features ["a b"] 1 tkLen 128 none`: with
`max_seq_length = 1` the effective length is `L = min 1 4 = 1`, the slice
`lst[-L+1:]` is `lst[0:]` (the whole list), so the truncated subtokens are
`[CLS] ++ [CLS, a, b, SEP]` — five entries instead of `L = 1`. -/
def featuresLenOne : Features :=
  { all_input_ids := [[5, 5, 1, 1, 5]]
    all_segment_ids := [[0]]
    all_input_masks := [[1, 1, 1, 1, 1], [1, 1, 1, 1, 1]]
    all_slot_masks := [[true, true, true, true, true]]
    all_slots := [] }

/-- The value of `get_features ["a b c d"] 4 tkLen 128 (some [[7, 9, 11, 13]])`:
raw length 6 exceeds `L = min 4 6 = 4`, so every field keeps its first entry
followed by the last `L - 1 = 3` raw entries. -/
def featuresC3 : Features :=
  { all_input_ids := [[5, 1, 1, 5]]
    all_segment_ids := [[0, 0, 0, 0]]
    all_input_masks := [[1, 1, 1, 1], [1, 1, 1, 1]]
    all_slot_masks := [[true, true, true, true]]
    all_slots := [[128, 11, 13, 128]] }

/-- The value of
`get_features ["a b", "a b c d"] 10 tkLen 128 (some [[7, 9], [1, 2, 3, 4]])`:
`L = min 10 6 = 6`; the first example (raw length 4) is right-padded to 6. -/
def featuresC4 : Features :=
  { all_input_ids := [[5, 1, 1, 5, 0, 0], [5, 1, 1, 1, 1, 5]]
    all_segment_ids := [[0, 0, 0, 0, 0, 0], [0, 0, 0, 0, 0, 0]]
    all_input_masks := [[1, 1, 1, 1, 0, 0], [1, 1, 1, 1, 1, 1],
      [1, 1, 1, 1], [1, 1, 1, 1, 1, 1]]
    all_slot_masks := [[true, true, true, true, false, false],
      [true, true, true, true, true, true]]
    all_slots := [[128, 7, 9, 128, 128, 128], [128, 1, 2, 3, 4, 128]] }

/-- The value of `get_features ["a b"] 5 tkLen 128 (some [[7, 9]])`:
`L = min 5 4 = 4`, no truncation, no padding; note the doubled
attention-mask list. -/
def featuresAB : Features :=
  { all_input_ids := [[5, 1, 1, 5]]
    all_segment_ids := [[0, 0, 0, 0]]
    all_input_masks := [[1, 1, 1, 1], [1, 1, 1, 1]]
    all_slot_masks := [[true, true, true, true]]
    all_slots := [[128, 7, 9, 128]] }

/-- The dataset built from the input file `["sentence label", "hello 3",
"bye 2"]` (header plus two lines) and slot file `["7", "9"]` with `tkLen`,
`max_seq_length = 10`, `num_samples = -1`, no shuffling: both examples are
kept in file order. -/
def datasetC9 : BertJointIntentSlotDataset :=
  { all_input_ids := [[5, 5, 5], [5, 3, 5]]
    all_segment_ids := [[0, 0, 0], [0, 0, 0]]
    all_input_masks := [[1, 1, 1], [1, 1, 1], [1, 1, 1], [1, 1, 1]]
    all_slot_masks := [[true, true, true], [true, true, true]]
    all_slots := [[128, 7, 128], [128, 9, 128]]
    all_intents := [3, 2] }

/-! ### Structural lemmas about the per-query builders -/

theorem query_subtokens_length (tk : Tokenizer) (ws : List String) :
    (query_subtokens tk ws).length = ((ws.map (fun w => (tk.tokenize w).length)).sum) + 2 := by
  simp [query_subtokens, List.length_flatten, Function.comp_def]

theorem two_le_query_subtokens_length (tk : Tokenizer) (ws : List String) :
    2 ≤ (query_subtokens tk ws).length := by
  rw [query_subtokens_length]; omega

theorem le_foldl_max (xs : List Nat) (a : Nat) : a ≤ xs.foldl max a := by
  induction xs generalizing a with
  | nil => exact Nat.le_refl a
  | cons x xs ih => exact Nat.le_trans (Nat.le_max_left a x) (ih (max a x))

theorem foldl_max_le {xs : List Nat} {a M : Nat} (ha : a ≤ M) (h : ∀ x ∈ xs, x ≤ M) :
    xs.foldl max a ≤ M := by
  induction xs generalizing a with
  | nil => exact ha
  | cons x xs ih =>
    exact ih (Nat.max_le.2 ⟨ha, h x (List.mem_cons_self x xs)⟩)
      (fun y hy => h y (List.mem_cons_of_mem x hy))

theorem pyMax?_le {l : List Nat} {m M : Nat} (hm : pyMax? l = some m)
    (h : ∀ x ∈ l, x ≤ M) : m ≤ M := by
  cases l with
  | nil => simp [pyMax?] at hm
  | cons x xs =>
    simp only [pyMax?, Option.some.injEq] at hm
    exact hm ▸ foldl_max_le (h x (List.mem_cons_self x xs))
      (fun y hy => h y (List.mem_cons_of_mem x hy))

theorem pyMax?_ge {l : List Nat} {m c : Nat} (hm : pyMax? l = some m)
    (h : ∀ x ∈ l, c ≤ x) : c ≤ m := by
  cases l with
  | nil => simp [pyMax?] at hm
  | cons x xs =>
    simp only [pyMax?, Option.some.injEq] at hm
    exact hm ▸ Nat.le_trans (h x (List.mem_cons_self x xs)) (le_foldl_max xs x)

/-! ### Lemmas about the slice, truncation and padding steps -/

theorem pySliceFrom_one_sub {α : Type _} (xs : List α) (L : Nat) (hL : 2 ≤ L)
    (hlen : L - 1 ≤ xs.length) :
    pySliceFrom xs (1 - (L : Int)) = xs.drop (xs.length - (L - 1)) := by
  have hneg : (1 - (L : Int)) < 0 := by omega
  have habs : (1 - (L : Int)).natAbs = L - 1 := by omega
  rw [pySliceFrom, if_pos hneg, habs, Nat.min_eq_right hlen]

theorem pySliceFrom_zero {α : Type _} (xs : List α) : pySliceFrom xs 0 = xs := by
  simp [pySliceFrom]

theorem trunc_subtokens_of_le {L : Nat} {st : List String} (h : st.length ≤ L) :
    trunc_subtokens L st = st := by
  rw [trunc_subtokens, if_neg (by omega)]

theorem trunc_subtokens_of_long {L : Nat} {st : List String} (hL : 2 ≤ L)
    (h : L < st.length) :
    trunc_subtokens L st = CLS :: st.drop (st.length - (L - 1)) := by
  rw [trunc_subtokens, if_pos (by omega), truncTail,
    pySliceFrom_one_sub st L hL (by omega)]

theorem trunc_subtokens_length_of_long {L : Nat} {st : List String} (hL : 2 ≤ L)
    (h : L < st.length) : (trunc_subtokens L st).length = L := by
  rw [trunc_subtokens_of_long hL h]
  simp [List.length_drop]; omega

theorem raw_lt_of_trunc_length_lt {L : Nat} {st : List String}
    (h : (trunc_subtokens L st).length < L) : st.length < L := by
  by_cases hgt : st.length > L
  · exfalso
    rcases Nat.lt_or_ge L 2 with hL2 | hL2
    · interval_cases L
      · exact Nat.not_lt_zero _ h
      · rw [trunc_subtokens, if_pos hgt, truncTail] at h
        have h0 : (1 : Int) - ((1 : Nat) : Int) = 0 := by norm_num
        rw [h0, pySliceFrom_zero] at h
        simp at h
    · rw [trunc_subtokens_length_of_long hL2 hgt] at h
      omega
  · rw [trunc_subtokens_of_le (by omega)] at h
    exact h

theorem trunc_length_of_short {L : Nat} {st : List String} (h : st.length < L) :
    (trunc_subtokens L st).length = st.length := by
  rw [trunc_subtokens_of_le (by omega)]

theorem finalize_list_of_long {α : Type _} {L : Nat} {st : List String} {xs : List α}
    (hd v : α) (hL : 2 ≤ L) (h : L < st.length) (hxs : L - 1 ≤ xs.length) :
    finalize_list L hd v st xs = hd :: xs.drop (xs.length - (L - 1)) := by
  have hlen : (trunc_subtokens L st).length = L := trunc_subtokens_length_of_long hL h
  rw [finalize_list, hlen, pad_to, if_neg (by omega), if_pos (by omega : st.length > L),
    truncTail, pySliceFrom_one_sub xs L hL hxs]

theorem finalize_list_of_short {α : Type _} {L : Nat} {st : List String} {xs : List α}
    (hd v : α) (h : st.length < L) :
    finalize_list L hd v st xs = xs ++ List.replicate (L - st.length) v := by
  rw [finalize_list, trunc_length_of_short h, pad_to, if_pos h,
    if_neg (by omega : ¬ st.length > L)]

theorem finalize_list_length {α : Type _} {L : Nat} {st : List String} {xs : List α}
    (hd v : α) (hL : 2 ≤ L) (heq : xs.length = st.length) :
    (finalize_list L hd v st xs).length = L := by
  rcases Nat.lt_trichotomy st.length L with hlt | heqL | hgt
  · rw [finalize_list_of_short hd v hlt]
    simp only [List.length_append, List.length_replicate, heq]
    omega
  · rw [finalize_list, trunc_subtokens_of_le (by omega), pad_to, if_neg (by omega),
      if_neg (by omega)]
    omega
  · rw [finalize_list_of_long hd v hL hgt (by omega)]
    simp only [List.length_cons, List.length_drop]
    omega

theorem final_input_ids_of_long {tk : Tokenizer} {L : Nat} {st : List String}
    (hL : 2 ≤ L) (h : L < st.length) :
    final_input_ids tk L st =
      tk.convert_token_to_id CLS ::
        (st.drop (st.length - (L - 1))).map tk.convert_token_to_id := by
  have hlen : (trunc_subtokens L st).length = L := trunc_subtokens_length_of_long hL h
  rw [final_input_ids, hlen, pad_to, if_neg (by omega), trunc_subtokens_of_long hL h,
    List.map_cons]

theorem final_input_ids_of_short {tk : Tokenizer} {L : Nat} {st : List String}
    (h : st.length < L) :
    final_input_ids tk L st =
      st.map tk.convert_token_to_id ++ List.replicate (L - st.length) 0 := by
  rw [final_input_ids, trunc_length_of_short h, pad_to, if_pos h,
    trunc_subtokens_of_le (by omega)]

theorem final_input_ids_length {tk : Tokenizer} {L : Nat} {st : List String}
    (hL : 2 ≤ L) : (final_input_ids tk L st).length = L := by
  rcases Nat.lt_trichotomy st.length L with hlt | heqL | hgt
  · rw [final_input_ids_of_short hlt]
    simp only [List.length_append, List.length_map, List.length_replicate]
    omega
  · rw [final_input_ids, trunc_subtokens_of_le (by omega), pad_to, if_neg (by omega)]
    simp [heqL]
  · rw [final_input_ids_of_long hL hgt]
    simp only [List.length_cons, List.length_map, List.length_drop]
    omega

theorem final_input_mask_length {L : Nat} {st : List String} (hL : 2 ≤ L) :
    (final_input_mask L st).length = L :=
  finalize_list_length 1 0 hL (List.length_replicate st.length 1)

/-! ### Length relations between mask, subtokens and slots -/

theorem mask_flatten_length (tk : Tokenizer) :
    ∀ ws : List String,
      ((ws.map (fun w => word_slot_mask (tk.tokenize w).length)).flatten).length =
        ((ws.map tk.tokenize).flatten).length +
          ws.countP (fun w => (tk.tokenize w).isEmpty)
  | [] => by simp
  | w :: ws => by
    simp only [List.map_cons, List.flatten_cons, List.length_append,
      mask_flatten_length tk ws, List.countP_cons]
    have hlen : (word_slot_mask (tk.tokenize w).length).length
        = (tk.tokenize w).length - 1 + 1 := by
      simp [word_slot_mask]
    by_cases hw : (tk.tokenize w).isEmpty = true
    · have h0 : (tk.tokenize w).length = 0 := List.isEmpty_iff_length_eq_zero.1 hw
      have hm : (word_slot_mask (tk.tokenize w).length).length = 1 := by
        simp [word_slot_mask, h0]
      rw [hm, if_pos hw, h0]
      omega
    · have hk : 1 ≤ (tk.tokenize w).length := by
        rcases Nat.eq_zero_or_pos (tk.tokenize w).length with h | h
        · exact absurd (List.isEmpty_iff_length_eq_zero.2 h) hw
        · exact h
      rw [hlen, if_neg hw]
      omega

theorem query_slot_mask_length (tk : Tokenizer) (ws : List String) :
    (query_slot_mask tk ws).length =
      (query_subtokens tk ws).length + ws.countP (fun w => (tk.tokenize w).isEmpty) := by
  rw [query_slot_mask, query_subtokens]
  simp only [List.length_append, List.length_cons, List.length_nil,
    mask_flatten_length tk ws]
  omega

theorem query_slot_mask_length_of_nonempty {tk : Tokenizer} {ws : List String}
    (hz : ∀ w ∈ ws, tk.tokenize w ≠ []) :
    (query_slot_mask tk ws).length = (query_subtokens tk ws).length := by
  rw [query_slot_mask_length]
  have : ws.countP (fun w => (tk.tokenize w).isEmpty) = 0 :=
    List.countP_eq_zero.2 (fun w hw => by
      simpa [List.isEmpty_iff] using hz w hw)
  omega

theorem word_slot_broadcast_length {tk : Tokenizer} :
    ∀ {ws : List String} {ls : List Int}, ws.length = ls.length →
    (word_slot_broadcast tk ws ls).length = (ws.map (fun w => (tk.tokenize w).length)).sum := by
  intro ws
  induction ws with
  | nil => intro ls h; cases ls with
    | nil => simp [word_slot_broadcast]
    | cons l ls => simp at h
  | cons w ws ih =>
    intro ls h
    cases ls with
    | nil => simp at h
    | cons l ls =>
      simp only [word_slot_broadcast, List.length_append, List.length_replicate,
        List.map_cons, List.sum_cons]
      rw [ih (by simpa using h)]

theorem query_slots_length {tk : Tokenizer} {pad_label : Int} {ws : List String}
    {ls : List Int} (h : ws.length = ls.length) :
    (query_slots tk pad_label ws ls).length = (query_subtokens tk ws).length := by
  rw [query_slots, query_subtokens_length]
  simp [word_slot_broadcast_length h]

theorem mask_flatten_count (tk : Tokenizer) :
    ∀ ws : List String,
      List.count true ((ws.map (fun w => word_slot_mask (tk.tokenize w).length)).flatten)
        = ws.length
  | [] => by simp
  | w :: ws => by
    simp only [List.map_cons, List.flatten_cons, List.count_append,
      mask_flatten_count tk ws, List.length_cons]
    rw [word_slot_mask, List.count_cons, List.count_replicate]
    simp
    omega

theorem query_slot_mask_count (tk : Tokenizer) (ws : List String) :
    (query_slot_mask tk ws).count true = ws.length + 2 := by
  rw [query_slot_mask]
  simp only [List.count_append, List.count_cons, mask_flatten_count tk ws]
  simp

/-! ### Claim C5 -/

/-- Claim C5: for every query, under the precondition that the tokenizer yields
at least one subtoken per word, the pre-truncation first-subtoken mask built by
`get_features` has length equal to the subtoken sequence length (including the
two bracket markers) and its count of `true` entries equals the number of words
plus 2. -/
theorem C5_first_subtoken_mask (tk : Tokenizer) (q : String)
    (hz : ∀ w ∈ pyStripSplit q, tk.tokenize w ≠ []) :
    (query_slot_mask tk (pyStripSplit q)).length
      = (query_subtokens tk (pyStripSplit q)).length
    ∧ (query_slot_mask tk (pyStripSplit q)).count true = (pyStripSplit q).length + 2 :=
  ⟨query_slot_mask_length_of_nonempty hz, query_slot_mask_count tk (pyStripSplit q)⟩

/-- Witness for C5 at the query `"hello world"` with the one-subtoken-per-word
tokenizer `tkLen`. -/
theorem C5_witness :
    (∀ w ∈ pyStripSplit "hello world", tkLen.tokenize w ≠ []) ∧
      (query_slot_mask tkLen (pyStripSplit "hello world")).count true
        = (pyStripSplit "hello world").length + 2 :=
  ⟨by decide, (C5_first_subtoken_mask tkLen "hello world" (by decide)).2⟩

/-! ### Claim C10 -/

/-- Claim C10: if the tokenizer returns zero subtokens for some word, the
first-subtoken mask built by `get_features` still gains a `true` entry for that
word while the subtoken sequence and slot sequence gain nothing, so the mask
is strictly longer than the subtoken sequence (by one per zero-subtoken word,
the `countP` term) while the slot sequence still matches the subtoken sequence:
the parallel-length invariant is broken. -/
theorem C10_zero_subtoken_word (tk : Tokenizer) (pad_label : Int) (q : String)
    (labels : List Int) (hlen : (pyStripSplit q).length = labels.length)
    (hzero : ∃ w ∈ pyStripSplit q, tk.tokenize w = []) :
    (query_slot_mask tk (pyStripSplit q)).length
      = (query_subtokens tk (pyStripSplit q)).length
        + (pyStripSplit q).countP (fun w => (tk.tokenize w).isEmpty)
    ∧ (query_slots tk pad_label (pyStripSplit q) labels).length
      = (query_subtokens tk (pyStripSplit q)).length
    ∧ (query_subtokens tk (pyStripSplit q)).length
      < (query_slot_mask tk (pyStripSplit q)).length := by
  refine ⟨query_slot_mask_length tk _, query_slots_length hlen, ?_⟩
  rw [query_slot_mask_length tk _]
  have hpos : 0 < (pyStripSplit q).countP (fun w => (tk.tokenize w).isEmpty) := by
    rcases hzero with ⟨w, hw, hz⟩
    exact List.countP_pos_iff.2 ⟨w, hw, by simp [hz]⟩
  omega

/-- Witness for C10: with `tkZero` (which erases the word `"z"`), the query
`"a z b"` yields a mask strictly longer than its subtoken sequence. -/
theorem C10_witness :
    ((pyStripSplit "a z b").length = [7, 9, 11].length
      ∧ ∃ w ∈ pyStripSplit "a z b", tkZero.tokenize w = [])
    ∧ (query_subtokens tkZero (pyStripSplit "a z b")).length
        < (query_slot_mask tkZero (pyStripSplit "a z b")).length :=
  ⟨⟨by decide, by decide⟩,
    (C10_zero_subtoken_word tkZero 128 "a z b" [7, 9, 11] (by decide) (by decide)).2.2⟩

/-! ### Claim C7 -/

/-- Claim C7 counterexample: called on an empty list of queries,
`get_features` does not return an empty result — `max(sent_lengths)` raises
`ValueError` on the empty batch, modelled here by `none`. -/
theorem C7_counterexample : get_features [] 10 tkLen 128 none = none := rfl

/-- Claim C7 (amended): when `get_features` is called with an empty list of
queries it raises (`max()` of an empty sequence), modelled as `none`, for
every maximum length, tokenizer, pad label and slot argument. -/
theorem C7_empty_batch_raises (max_seq_length : Nat) (tk : Tokenizer)
    (pad_label : Int) (raw_slots : Option (List (List Int))) :
    get_features [] max_seq_length tk pad_label raw_slots = none := rfl

/-! ### Claim C1 -/

/-- Claim C1 (code-bug evidence): on a batch of N = 1 labelled query, the
lists returned by `get_features` have lengths (1, 1, 2, 1, 1): the
attention-mask list has 2·N entries, because line 120 of the source appends a
second mask per example inside the truncation/padding loop instead of
assigning it, while the other four lists have N entries. -/
theorem C1_attention_mask_list_doubled :
    (get_features ["a"] 10 tkLen 128 (some [[7]])).map
        (fun f => (f.all_input_ids.length, f.all_segment_ids.length,
          f.all_input_masks.length, f.all_slot_masks.length, f.all_slots.length))
      = some (1, 1, 2, 1, 1) := by decide

/-! ### Unfolding `get_features` under a known batch maximum -/

theorem get_features_eq_some {queries : List String} {tk : Tokenizer} {mx : Nat}
    (max_seq_length : Nat) (pad_label : Int) (raw_slots : Option (List (List Int)))
    (hmx : pyMax? (((queries.map pyStripSplit).map (query_subtokens tk)).map List.length)
      = some mx) :
    get_features queries max_seq_length tk pad_label raw_slots = some
      { all_input_ids := ((queries.map pyStripSplit).map (query_subtokens tk)).map
          (final_input_ids tk (min max_seq_length mx))
        all_segment_ids := ((queries.map pyStripSplit).map (query_subtokens tk)).map
          (fun _ => List.replicate (min max_seq_length mx) 0)
        all_input_masks := ((queries.map pyStripSplit).map (query_subtokens tk)).map
            (final_input_mask (min max_seq_length mx))
          ++ ((queries.map pyStripSplit).map (query_subtokens tk)).map
            (fun st => List.replicate (trunc_subtokens (min max_seq_length mx) st).length 1)
        all_slot_masks := (queries.map pyStripSplit).map
          (fun ws => final_slot_mask (min max_seq_length mx) (query_subtokens tk ws)
            (query_slot_mask tk ws))
        all_slots :=
          match raw_slots with
          | none => []
          | some rs => ((queries.map pyStripSplit).zip rs).map
              (fun p => final_slots (min max_seq_length mx) pad_label
                (query_subtokens tk p.1) (query_slots tk pad_label p.1 p.2)) } := by
  simp only [get_features]
  rw [hmx]

theorem two_le_batch_max {queries : List String} {tk : Tokenizer} {mx : Nat}
    (hmx : pyMax? (((queries.map pyStripSplit).map (query_subtokens tk)).map List.length)
      = some mx) : 2 ≤ mx := by
  refine pyMax?_ge hmx ?_
  intro x hx
  rcases List.mem_map.1 hx with ⟨st, hst, rfl⟩
  rcases List.mem_map.1 hst with ⟨ws, hws, rfl⟩
  exact two_le_query_subtokens_length tk ws

/-! ### Claim C2 -/

/-- Claim C2 counterexample: with `max_seq_length = 1` on the batch
`["a b"]` (maximum raw length 4, so the claimed `L = min 1 4 = 1`), the
returned token-id sequence has 5 entries, not `L`: at `L = 1` the Python
slice `lst[-L+1:]` is `lst[0:]`, so "truncation" prepends the marker to the
whole list. -/
theorem C2_counterexample :
    get_features ["a b"] 1 tkLen 128 none = some featuresLenOne
    ∧ ¬ (∀ ids ∈ featuresLenOne.all_input_ids, ids.length = min 1 4) :=
  ⟨by decide, by decide⟩

/-- Claim C2 (amended): for every non-empty batch, the effective length is
`L = min max_seq_length mx` where `mx` is the maximum raw pre-truncation
subtoken length — in particular `L = mx`, not `max_seq_length`, whenever every
raw length is at most `max_seq_length`. Provided `max_seq_length ≥ 2`, every
returned token-id and segment-id sequence, and each example's attention mask
(the first N entries of the doubled attention-mask list, see C1), has length
exactly `L`; the first-subtoken masks have length `L` provided the tokenizer
yields at least one subtoken per word, and the slot sequences have length `L`
provided each query's slot-label count equals its word count. -/
theorem C2_effective_length
    (queries : List String) (max_seq_length : Nat) (tk : Tokenizer) (pad_label : Int)
    (raw_slots : Option (List (List Int))) (f : Features) (mx : Nat)
    (hM : 2 ≤ max_seq_length)
    (hmx : pyMax? (((queries.map pyStripSplit).map (query_subtokens tk)).map List.length)
      = some mx)
    (hf : get_features queries max_seq_length tk pad_label raw_slots = some f) :
    ((∀ q ∈ queries, (query_subtokens tk (pyStripSplit q)).length ≤ max_seq_length) →
      min max_seq_length mx = mx)
    ∧ f.all_input_ids.length = queries.length
    ∧ (∀ ids ∈ f.all_input_ids, ids.length = min max_seq_length mx)
    ∧ f.all_segment_ids.length = queries.length
    ∧ (∀ seg ∈ f.all_segment_ids, seg.length = min max_seq_length mx)
    ∧ (∀ m ∈ f.all_input_masks.take queries.length, m.length = min max_seq_length mx)
    ∧ f.all_slot_masks.length = queries.length
    ∧ ((∀ q ∈ queries, ∀ w ∈ pyStripSplit q, tk.tokenize w ≠ []) →
        ∀ m ∈ f.all_slot_masks, m.length = min max_seq_length mx)
    ∧ (∀ rs, raw_slots = some rs →
        List.Forall₂ (fun q ls => (pyStripSplit q).length = List.length ls) queries rs →
        f.all_slots.length = queries.length
          ∧ ∀ sl ∈ f.all_slots, sl.length = min max_seq_length mx) := by
  have hrec := get_features_eq_some max_seq_length pad_label raw_slots hmx
  have hfR := Option.some.inj (hf.symm.trans hrec)
  subst hfR
  have hL2 : 2 ≤ min max_seq_length mx := le_min hM (two_le_batch_max hmx)
  refine ⟨?_, ?_, ?_, ?_, ?_, ?_, ?_, ?_, ?_⟩
  · intro hall
    refine Nat.min_eq_right (pyMax?_le hmx ?_)
    intro x hx
    rcases List.mem_map.1 hx with ⟨st, hst, rfl⟩
    rcases List.mem_map.1 hst with ⟨ws, hws, rfl⟩
    rcases List.mem_map.1 hws with ⟨q, hq, rfl⟩
    exact hall q hq
  · simp
  · intro ids hids
    rcases List.mem_map.1 hids with ⟨st, hst, rfl⟩
    exact final_input_ids_length hL2
  · simp
  · intro seg hseg
    rcases List.mem_map.1 hseg with ⟨st, hst, rfl⟩
    exact List.length_replicate _ _
  · intro m hm
    rw [List.take_left' (by simp)] at hm
    rcases List.mem_map.1 hm with ⟨st, hst, rfl⟩
    exact final_input_mask_length hL2
  · simp
  · intro hz m hm
    rcases List.mem_map.1 hm with ⟨ws, hws, rfl⟩
    rcases List.mem_map.1 hws with ⟨q, hq, rfl⟩
    exact finalize_list_length true false hL2
      (query_slot_mask_length_of_nonempty (hz q hq))
  · intro rs hrs hforall
    subst hrs
    have h2 : List.Forall₂ (fun ws ls => List.length ws = List.length ls)
        (queries.map pyStripSplit) rs :=
      List.forall₂_map_left_iff.mpr hforall
    obtain ⟨hlen_eq, hzip⟩ := List.forall₂_iff_zip.1 h2
    constructor
    · simp only [List.length_map, List.length_zip]
      simp [hlen_eq.symm]
    · intro sl hsl
      rcases List.mem_map.1 hsl with ⟨p, hp, rfl⟩
      have hpl : p.1.length = p.2.length := hzip hp
      exact finalize_list_length pad_label pad_label hL2 (query_slots_length hpl)

/-- Witness for C2: the labelled batch `["a b"]` with `max_seq_length = 5`,
where every raw length (4) is below the cap, so `L = min 5 4 = 4`. -/
theorem C2_witness :
    (2 ≤ 5
      ∧ get_features ["a b"] 5 tkLen 128 (some [[7, 9]]) = some featuresAB)
    ∧ (∀ ids ∈ featuresAB.all_input_ids, ids.length = min 5 4)
    ∧ min 5 4 = 4 := by
  refine ⟨⟨by decide, by decide⟩, ?_, by decide⟩
  exact (C2_effective_length ["a b"] 5 tkLen 128 (some [[7, 9]]) featuresAB 4
    (by decide) (by decide) (by decide)).2.2.1

/-! ### Claim C3 -/

/-- Claim C3 counterexample: with `max_seq_length = 1` on `["a b"]`
(raw length 4 exceeds `L = min 1 4 = 1`), the claim prescribes the token-id
sequence `[id(CLS)]` — the start marker followed by the final `L - 1 = 0` raw
positions — but the code returns a 5-entry sequence, because at `L = 1` the
slice `lst[-L+1:]` keeps the whole list. -/
theorem C3_counterexample :
    get_features ["a b"] 1 tkLen 128 none = some featuresLenOne
    ∧ min 1 4 < (query_subtokens tkLen (pyStripSplit "a b")).length
    ∧ featuresLenOne.all_input_ids[0]? ≠ some [tkLen.convert_token_to_id CLS] :=
  ⟨by decide, by decide, by decide⟩

/-- Claim C3 (amended): provided `max_seq_length ≥ 2`, for every example whose
raw subtoken length exceeds `L = min max_seq_length mx`, the returned token-id
sequence is the start marker's id followed by exactly the ids of the final
`L - 1` raw subtoken positions in original order, and the attention mask,
first-subtoken mask and (when the example's label count matches its word
count) slot sequence are truncated by the identical first-entry-plus-last-
`L - 1` rule. At `max_seq_length = 1` the slice degenerates instead (see the
counterexample). -/
theorem C3_tail_truncation
    (queries : List String) (max_seq_length : Nat) (tk : Tokenizer) (pad_label : Int)
    (raw_slots : Option (List (List Int))) (f : Features) (mx i : Nat)
    (hM : 2 ≤ max_seq_length)
    (hmx : pyMax? (((queries.map pyStripSplit).map (query_subtokens tk)).map List.length)
      = some mx)
    (hf : get_features queries max_seq_length tk pad_label raw_slots = some f)
    (hi : i < queries.length)
    (hlong : min max_seq_length mx
      < (query_subtokens tk (pyStripSplit queries[i])).length) :
    f.all_input_ids[i]? = some (tk.convert_token_to_id CLS ::
        ((query_subtokens tk (pyStripSplit queries[i])).drop
            ((query_subtokens tk (pyStripSplit queries[i])).length
              - (min max_seq_length mx - 1))).map tk.convert_token_to_id)
    ∧ f.all_input_masks[i]? = some (1 ::
        (List.replicate (query_subtokens tk (pyStripSplit queries[i])).length 1).drop
          ((query_subtokens tk (pyStripSplit queries[i])).length
            - (min max_seq_length mx - 1)))
    ∧ f.all_slot_masks[i]? = some (true ::
        (query_slot_mask tk (pyStripSplit queries[i])).drop
          ((query_slot_mask tk (pyStripSplit queries[i])).length
            - (min max_seq_length mx - 1)))
    ∧ (∀ rs, raw_slots = some rs → ∀ ls, rs[i]? = some ls →
        (pyStripSplit queries[i]).length = ls.length →
        f.all_slots[i]? = some (pad_label ::
          (query_slots tk pad_label (pyStripSplit queries[i]) ls).drop
            ((query_slots tk pad_label (pyStripSplit queries[i]) ls).length
              - (min max_seq_length mx - 1)))) := by
  have hrec := get_features_eq_some max_seq_length pad_label raw_slots hmx
  have hfR := Option.some.inj (hf.symm.trans hrec)
  subst hfR
  have hL2 : 2 ≤ min max_seq_length mx := le_min hM (two_le_batch_max hmx)
  have hA : ((queries.map pyStripSplit).map (query_subtokens tk))[i]?
      = some (query_subtokens tk (pyStripSplit queries[i])) := by
    simp [List.getElem?_eq_getElem hi]
  refine ⟨?_, ?_, ?_, ?_⟩
  · rw [List.getElem?_map, hA]
    simp only [Option.map_some']
    rw [final_input_ids_of_long hL2 hlong]
  · rw [List.getElem?_append_left (by simpa using hi), List.getElem?_map, hA]
    simp only [Option.map_some']
    rw [final_input_mask, finalize_list_of_long 1 0 hL2 hlong (by simp; omega)]
    simp
  · have hB : (queries.map pyStripSplit)[i]? = some (pyStripSplit queries[i]) := by
      simp [List.getElem?_eq_getElem hi]
    rw [List.getElem?_map, hB]
    simp only [Option.map_some']
    have hsm : (query_subtokens tk (pyStripSplit queries[i])).length
        ≤ (query_slot_mask tk (pyStripSplit queries[i])).length := by
      rw [query_slot_mask_length]
      omega
    rw [final_slot_mask, finalize_list_of_long true false hL2 hlong (by omega)]
  · intro rs hrs ls hls hlen
    subst hrs
    have hB : (queries.map pyStripSplit)[i]? = some (pyStripSplit queries[i]) := by
      simp [List.getElem?_eq_getElem hi]
    have hzipi : ((queries.map pyStripSplit).zip rs)[i]?
        = some (pyStripSplit queries[i], ls) :=
      List.getElem?_zip_eq_some.2 ⟨hB, hls⟩
    rw [List.getElem?_map, hzipi]
    simp only [Option.map_some']
    have hql : (query_slots tk pad_label (pyStripSplit queries[i]) ls).length
        = (query_subtokens tk (pyStripSplit queries[i])).length :=
      query_slots_length hlen
    rw [final_slots, finalize_list_of_long pad_label pad_label hL2 hlong (by omega)]

/-- Witness for C3: `["a b c d"]` with `max_seq_length = 4`, raw length 6. -/
theorem C3_witness :
    (min 4 6 < (query_subtokens tkLen (pyStripSplit "a b c d")).length
      ∧ get_features ["a b c d"] 4 tkLen 128 (some [[7, 9, 11, 13]]) = some featuresC3)
    ∧ featuresC3.all_input_ids[0]? = some (tkLen.convert_token_to_id CLS ::
        ((query_subtokens tkLen (pyStripSplit "a b c d")).drop
            ((query_subtokens tkLen (pyStripSplit "a b c d")).length
              - (min 4 6 - 1))).map tkLen.convert_token_to_id) := by
  refine ⟨⟨by decide, by decide⟩, ?_⟩
  exact (C3_tail_truncation ["a b c d"] 4 tkLen 128 (some [[7, 9, 11, 13]])
    featuresC3 6 0 (by decide) (by decide) (by decide) (by decide) (by decide)).1

/-! ### Claim C4 -/

theorem sum_replicate_zero (b : Nat) : (List.replicate b (0 : Nat)).sum = 0 := by
  induction b with
  | zero => rfl
  | succ b ih => simp only [List.replicate_succ, List.sum_cons, ih]

theorem sum_replicate_one_zero (a b : Nat) :
    (List.replicate a 1 ++ List.replicate b 0).sum = a := by
  induction a with
  | zero => simp [sum_replicate_zero]
  | succ a iha =>
    simp only [List.replicate_succ, List.cons_append, List.sum_cons, iha]
    omega

/-- Claim C4: for every example whose subtoken length after truncation is
below `L`, `get_features` right-pads the token ids and attention mask with
zeros, the first-subtoken mask with `false` and the slot sequence with the
pad label, by `L - raw` entries each; segment ids are a constant-zero
sequence of length `L`; and the example's count of real positions (its raw
length) equals the sum of its attention mask. The padded first-subtoken mask
and slot sequence reach length exactly `L` under the spec's scoping
preconditions (at least one subtoken per word, label count equal to word
count; compare C10). -/
theorem C4_padding
    (queries : List String) (max_seq_length : Nat) (tk : Tokenizer) (pad_label : Int)
    (raw_slots : Option (List (List Int))) (f : Features) (mx i : Nat)
    (hmx : pyMax? (((queries.map pyStripSplit).map (query_subtokens tk)).map List.length)
      = some mx)
    (hf : get_features queries max_seq_length tk pad_label raw_slots = some f)
    (hi : i < queries.length)
    (hshort : (trunc_subtokens (min max_seq_length mx)
        (query_subtokens tk (pyStripSplit queries[i]))).length < min max_seq_length mx) :
    f.all_input_ids[i]? = some
        ((query_subtokens tk (pyStripSplit queries[i])).map tk.convert_token_to_id
          ++ List.replicate (min max_seq_length mx
              - (query_subtokens tk (pyStripSplit queries[i])).length) 0)
    ∧ f.all_input_masks[i]? = some
        (List.replicate (query_subtokens tk (pyStripSplit queries[i])).length 1
          ++ List.replicate (min max_seq_length mx
              - (query_subtokens tk (pyStripSplit queries[i])).length) 0)
    ∧ (List.replicate (query_subtokens tk (pyStripSplit queries[i])).length (1 : Nat)
          ++ List.replicate (min max_seq_length mx
              - (query_subtokens tk (pyStripSplit queries[i])).length) 0).sum
        = (query_subtokens tk (pyStripSplit queries[i])).length
    ∧ f.all_segment_ids[i]? = some (List.replicate (min max_seq_length mx) 0)
    ∧ f.all_slot_masks[i]? = some
        (query_slot_mask tk (pyStripSplit queries[i])
          ++ List.replicate (min max_seq_length mx
              - (query_subtokens tk (pyStripSplit queries[i])).length) false)
    ∧ ((∀ w ∈ pyStripSplit queries[i], tk.tokenize w ≠ []) →
        (query_slot_mask tk (pyStripSplit queries[i])
          ++ List.replicate (min max_seq_length mx
              - (query_subtokens tk (pyStripSplit queries[i])).length) false).length
          = min max_seq_length mx)
    ∧ (∀ rs, raw_slots = some rs → ∀ ls, rs[i]? = some ls →
        (pyStripSplit queries[i]).length = ls.length →
        f.all_slots[i]? = some
            (query_slots tk pad_label (pyStripSplit queries[i]) ls
              ++ List.replicate (min max_seq_length mx
                  - (query_subtokens tk (pyStripSplit queries[i])).length) pad_label)
          ∧ (query_slots tk pad_label (pyStripSplit queries[i]) ls
              ++ List.replicate (min max_seq_length mx
                  - (query_subtokens tk (pyStripSplit queries[i])).length) pad_label).length
            = min max_seq_length mx) := by
  have hrec := get_features_eq_some max_seq_length pad_label raw_slots hmx
  have hfR := Option.some.inj (hf.symm.trans hrec)
  subst hfR
  have hraw : (query_subtokens tk (pyStripSplit queries[i])).length
      < min max_seq_length mx := raw_lt_of_trunc_length_lt hshort
  have hA : ((queries.map pyStripSplit).map (query_subtokens tk))[i]?
      = some (query_subtokens tk (pyStripSplit queries[i])) := by
    simp [List.getElem?_eq_getElem hi]
  have hB : (queries.map pyStripSplit)[i]? = some (pyStripSplit queries[i]) := by
    simp [List.getElem?_eq_getElem hi]
  refine ⟨?_, ?_, sum_replicate_one_zero _ _, ?_, ?_, ?_, ?_⟩
  · rw [List.getElem?_map, hA]
    simp only [Option.map_some']
    rw [final_input_ids_of_short hraw]
  · rw [List.getElem?_append_left (by simpa using hi), List.getElem?_map, hA]
    simp only [Option.map_some']
    rw [final_input_mask, finalize_list_of_short 1 0 hraw]
  · rw [List.getElem?_map, hA]
    simp only [Option.map_some']
  · rw [List.getElem?_map, hB]
    simp only [Option.map_some']
    rw [final_slot_mask, finalize_list_of_short true false hraw]
  · intro hz
    simp only [List.length_append, List.length_replicate,
      query_slot_mask_length_of_nonempty hz]
    omega
  · intro rs hrs ls hls hlen
    subst hrs
    have hzipi : ((queries.map pyStripSplit).zip rs)[i]?
        = some (pyStripSplit queries[i], ls) :=
      List.getElem?_zip_eq_some.2 ⟨hB, hls⟩
    constructor
    · rw [List.getElem?_map, hzipi]
      simp only [Option.map_some']
      rw [final_slots, finalize_list_of_short pad_label pad_label hraw]
    · simp only [List.length_append, List.length_replicate, query_slots_length hlen]
      omega

/-- Witness for C4: the batch `["a b", "a b c d"]` with `max_seq_length = 10`;
`L = 6` and the first example (raw length 4) is padded. -/
theorem C4_witness :
    ((trunc_subtokens (min 10 6) (query_subtokens tkLen (pyStripSplit "a b"))).length
        < min 10 6
      ∧ get_features ["a b", "a b c d"] 10 tkLen 128 (some [[7, 9], [1, 2, 3, 4]])
        = some featuresC4)
    ∧ featuresC4.all_input_ids[0]? = some
        ((query_subtokens tkLen (pyStripSplit "a b")).map tkLen.convert_token_to_id
          ++ List.replicate (min 10 6
              - (query_subtokens tkLen (pyStripSplit "a b")).length) 0) := by
  refine ⟨⟨by decide, by decide⟩, ?_⟩
  exact (C4_padding ["a b", "a b c d"] 10 tkLen 128 (some [[7, 9], [1, 2, 3, 4]])
    featuresC4 6 0 (by decide) (by decide) (by decide) (by decide)).1

/-! ### Claim C6: positional alignment of slots, mask and subtokens -/

theorem word_slot_mask_length_pos {n : Nat} (h : 1 ≤ n) :
    (word_slot_mask n).length = n := by
  simp [word_slot_mask]
  omega

theorem take_sum_add_le (tk : Tokenizer) :
    ∀ {ws : List String} {j : Nat} {w : String}, ws[j]? = some w →
      ((ws.take j).map (fun w => (tk.tokenize w).length)).sum + (tk.tokenize w).length
        ≤ (ws.map (fun w => (tk.tokenize w).length)).sum := by
  intro ws
  induction ws with
  | nil => intro j w hw; simp at hw
  | cons w0 ws ih =>
    intro j w hw
    cases j with
    | zero =>
      rw [List.getElem?_cons_zero] at hw
      obtain rfl := Option.some.inj hw
      simp only [List.take_zero, List.map_nil, List.sum_nil, List.map_cons,
        List.sum_cons, Nat.zero_add]
      omega
    | succ j =>
      rw [List.getElem?_cons_succ] at hw
      have := ih hw
      simp only [List.take_succ_cons, List.map_cons, List.sum_cons]
      omega

theorem word_slot_broadcast_getElem {tk : Tokenizer} :
    ∀ {ws : List String} {ls : List Int} {j t : Nat} {w : String},
      ws.length = ls.length → ws[j]? = some w → t < (tk.tokenize w).length →
      (word_slot_broadcast tk ws ls)[((ws.take j).map
          (fun w => (tk.tokenize w).length)).sum + t]?
        = ls[j]? := by
  intro ws
  induction ws with
  | nil => intro ls j t w hlen hw ht; simp at hw
  | cons w0 ws ih =>
    intro ls j t w hlen hw ht
    cases ls with
    | nil => simp at hlen
    | cons l0 ls =>
      cases j with
      | zero =>
        rw [List.getElem?_cons_zero] at hw
        obtain rfl := Option.some.inj hw
        simp only [List.take_zero, List.map_nil, List.sum_nil, Nat.zero_add,
          word_slot_broadcast]
        rw [List.getElem?_append_left (by simpa using ht),
          List.getElem?_replicate_of_lt ht, List.getElem?_cons_zero]
      | succ j =>
        rw [List.getElem?_cons_succ] at hw
        simp only [word_slot_broadcast, List.take_succ_cons, List.map_cons, List.sum_cons]
        rw [List.getElem?_append_right (by simp only [List.length_replicate]; omega)]
        have harith : (tk.tokenize w0).length
              + ((ws.take j).map (fun w => (tk.tokenize w).length)).sum + t
              - (List.replicate (tk.tokenize w0).length l0).length
            = ((ws.take j).map (fun w => (tk.tokenize w).length)).sum + t := by
          simp only [List.length_replicate]
          omega
        rw [harith, List.getElem?_cons_succ]
        exact ih (by simpa using hlen) hw ht

theorem mask_core_true_start {tk : Tokenizer} :
    ∀ {ws : List String} {p : Nat},
      (∀ w ∈ ws, tk.tokenize w ≠ []) →
      ((ws.map (fun w => word_slot_mask (tk.tokenize w).length)).flatten)[p]? = some true →
      ∃ j, j < ws.length
        ∧ p = ((ws.take j).map (fun w => (tk.tokenize w).length)).sum := by
  intro ws
  induction ws with
  | nil => intro p hz hm; simp at hm
  | cons w0 ws ih =>
    intro p hz hm
    have hk : 1 ≤ (tk.tokenize w0).length := by
      have hne := hz w0 (List.mem_cons_self w0 ws)
      rcases Nat.eq_zero_or_pos (tk.tokenize w0).length with h0 | h0
      · exact absurd (List.length_eq_zero.1 h0) hne
      · exact h0
    simp only [List.map_cons, List.flatten_cons] at hm
    by_cases hp : p < (word_slot_mask (tk.tokenize w0).length).length
    · rw [List.getElem?_append_left hp] at hm
      cases p with
      | zero => exact ⟨0, by simp, by simp⟩
      | succ p =>
        rw [word_slot_mask, List.getElem?_cons_succ, List.getElem?_replicate] at hm
        by_cases hlt : p < (tk.tokenize w0).length - 1
        · rw [if_pos hlt] at hm; simp at hm
        · rw [if_neg hlt] at hm; simp at hm
    · push_neg at hp
      rw [List.getElem?_append_right hp] at hm
      have hlen0 : (word_slot_mask (tk.tokenize w0).length).length
          = (tk.tokenize w0).length := word_slot_mask_length_pos hk
      obtain ⟨j, hj, hpj⟩ := ih (fun w hw => hz w (List.mem_cons_of_mem w0 hw)) hm
      refine ⟨j + 1, by simpa using hj, ?_⟩
      simp only [List.take_succ_cons, List.map_cons, List.sum_cons]
      rw [hlen0] at hp hpj
      omega

theorem query_slots_getElem {tk : Tokenizer} {pad_label : Int} {ws : List String}
    {ls : List Int} {j t : Nat} {w : String}
    (hlen : ws.length = ls.length) (hw : ws[j]? = some w)
    (ht : t < (tk.tokenize w).length) :
    (query_slots tk pad_label ws ls)[word_starts tk ws j + t]? = ls[j]? := by
  rw [query_slots, word_starts]
  have hbound : ((ws.take j).map (fun w => (tk.tokenize w).length)).sum + t
      < (word_slot_broadcast tk ws ls).length := by
    rw [word_slot_broadcast_length hlen]
    have := take_sum_add_le tk hw
    omega
  rw [List.getElem?_append_left (by simp only [List.length_cons]; omega)]
  have hidx : (1 + ((ws.take j).map (fun w => (tk.tokenize w).length)).sum) + t
      = (((ws.take j).map (fun w => (tk.tokenize w).length)).sum + t) + 1 := by omega
  rw [hidx, List.getElem?_cons_succ]
  exact word_slot_broadcast_getElem hlen hw ht

theorem query_slot_mask_true_at {tk : Tokenizer} {ws : List String} {p : Nat}
    (hz : ∀ w ∈ ws, tk.tokenize w ≠ [])
    (hp0 : 0 < p) (hpe : p + 1 < (query_subtokens tk ws).length)
    (hm : (query_slot_mask tk ws)[p]? = some true) :
    ∃ j, j < ws.length ∧ p = word_starts tk ws j := by
  have hMlen : ((ws.map (fun w => word_slot_mask (tk.tokenize w).length)).flatten).length
      = ((ws.map tk.tokenize).flatten).length := by
    have hml := mask_flatten_length tk ws
    have hc : ws.countP (fun w => (tk.tokenize w).isEmpty) = 0 :=
      List.countP_eq_zero.2 (fun w hw => by simpa [List.isEmpty_iff] using hz w hw)
    omega
  have hsub : (query_subtokens tk ws).length
      = ((ws.map tk.tokenize).flatten).length + 2 := by
    rw [query_subtokens]; simp
  rw [query_slot_mask] at hm
  rw [List.getElem?_append_left (by simp only [List.length_cons]; omega)] at hm
  obtain ⟨p', rfl⟩ : ∃ p', p = p' + 1 := ⟨p - 1, by omega⟩
  rw [List.getElem?_cons_succ] at hm
  obtain ⟨j, hj, hpj⟩ := mask_core_true_start hz hm
  exact ⟨j, hj, by rw [word_starts]; omega⟩

/-- Claim C6: for every labelled query whose slot-label count equals its word
count, under the tokenizer precondition of at least one subtoken per word
(spec line 44; compare C10), the pre-truncation slot sequence built by
`get_features` has the same length as the subtoken sequence, its two bracket
positions carry the pad label, each subtoken position of word `j` carries
label `j`, and every non-bracket position marked `true` in the first-subtoken
mask is the start of some word `j` and carries that word's label. -/
theorem C6_slot_alignment (tk : Tokenizer) (pad_label : Int) (q : String)
    (labels : List Int)
    (hlen : (pyStripSplit q).length = labels.length)
    (hz : ∀ w ∈ pyStripSplit q, tk.tokenize w ≠ []) :
    (query_slots tk pad_label (pyStripSplit q) labels).length
      = (query_subtokens tk (pyStripSplit q)).length
    ∧ (query_slots tk pad_label (pyStripSplit q) labels).head? = some pad_label
    ∧ (query_slots tk pad_label (pyStripSplit q) labels).getLast? = some pad_label
    ∧ (∀ j, j < (pyStripSplit q).length → ∀ t w, (pyStripSplit q)[j]? = some w →
        t < (tk.tokenize w).length →
        (query_slots tk pad_label (pyStripSplit q) labels)[word_starts tk (pyStripSplit q) j + t]?
          = labels[j]?)
    ∧ (∀ p, 0 < p → p + 1 < (query_subtokens tk (pyStripSplit q)).length →
        (query_slot_mask tk (pyStripSplit q))[p]? = some true →
        ∃ j, j < (pyStripSplit q).length ∧ p = word_starts tk (pyStripSplit q) j ∧
          (query_slots tk pad_label (pyStripSplit q) labels)[p]? = labels[j]?) := by
  refine ⟨query_slots_length hlen, ?_, ?_, ?_, ?_⟩
  · rw [query_slots, List.cons_append, List.head?_cons]
  · rw [query_slots]
    exact List.getLast?_concat _
  · intro j hj t w hw ht
    exact query_slots_getElem hlen hw ht
  · intro p hp0 hpe hm
    obtain ⟨j, hj, rfl⟩ := query_slot_mask_true_at hz hp0 hpe hm
    refine ⟨j, hj, rfl, ?_⟩
    have hw : (pyStripSplit q)[j]? = some ((pyStripSplit q).get ⟨j, hj⟩) := by
      simp [List.getElem?_eq_getElem hj]
    have hk : 0 < (tk.tokenize ((pyStripSplit q).get ⟨j, hj⟩)).length :=
      List.length_pos.2 (hz _ (List.get_mem _ _ _))
    have := @query_slots_getElem tk pad_label (pyStripSplit q) labels j 0
      ((pyStripSplit q).get ⟨j, hj⟩) hlen hw hk
    simpa using this

/-- Witness for C6 at the query `"a b"` with labels `[7, 9]`. -/
theorem C6_witness :
    ((pyStripSplit "a b").length = [7, 9].length
      ∧ ∀ w ∈ pyStripSplit "a b", tkLen.tokenize w ≠ [])
    ∧ (query_slots tkLen 128 (pyStripSplit "a b") [7, 9]).length
        = (query_subtokens tkLen (pyStripSplit "a b")).length :=
  ⟨⟨by decide, by decide⟩,
    (C6_slot_alignment tkLen 128 "a b" [7, 9] (by decide) (by decide)).1⟩

/-! ### Claims C8 and C9: the dataset constructor -/

theorem mapOption_length {α β : Type _} {f : α → Option β} :
    ∀ {xs : List α} {ys : List β}, mapOption f xs = some ys → ys.length = xs.length := by
  intro xs
  induction xs with
  | nil =>
    intro ys h
    simp only [mapOption] at h
    obtain rfl := Option.some.inj h
    rfl
  | cons x xs ih =>
    intro ys h
    simp only [mapOption] at h
    cases hfx : f x with
    | none => rw [hfx] at h; simp at h
    | some y =>
      cases hrest : mapOption f xs with
      | none => rw [hfx, hrest] at h; simp at h
      | some ys0 =>
        rw [hfx, hrest] at h
        obtain rfl := Option.some.inj h
        simp [ih hrest]

theorem mapOption_getElem? {α β : Type _} {f : α → Option β} :
    ∀ {xs : List α} {ys : List β}, mapOption f xs = some ys →
      ∀ {i : Nat}, i < xs.length →
        ∃ x y, xs[i]? = some x ∧ f x = some y ∧ ys[i]? = some y := by
  intro xs
  induction xs with
  | nil => intro ys h i hi; simp at hi
  | cons x xs ih =>
    intro ys h i hi
    simp only [mapOption] at h
    cases hfx : f x with
    | none => rw [hfx] at h; simp at h
    | some y =>
      cases hrest : mapOption f xs with
      | none => rw [hfx, hrest] at h; simp at h
      | some ys0 =>
        rw [hfx, hrest] at h
        obtain rfl := Option.some.inj h
        cases i with
        | zero => exact ⟨x, y, by simp, hfx, by simp⟩
        | succ i =>
          obtain ⟨x0, y0, hx0, hy0, hys⟩ := ih hrest (by simpa using hi)
          exact ⟨x0, y0, by simpa using hx0, hy0, by simpa using hys⟩

/-- Claim C8: constructing a `BertJointIntentSlotDataset` with a requested
sample count of exactly zero raises `ValueError` — and the error neither
inspects the file contents, the tokenizer, nor any other argument (the check
is the first statement of `__init__`, before either file is opened): the
rejection happens for all inputs, and conversely no other sample count ever
produces this error. -/
theorem C8_zero_samples_rejected
    (input_lines slot_lines : List String) (max_seq_length : Nat) (tk : Tokenizer)
    (num_samples : Int) (shuffle : Bool) (pad_label : Int)
    (orc : List (String × String) → List (String × String)) :
    BertJointIntentSlotDataset.build input_lines slot_lines max_seq_length tk
        num_samples shuffle pad_label orc
      = Except.error InitError.numSamplesZero ↔ num_samples = 0 := by
  constructor
  · intro h
    by_contra hne
    simp only [BertJointIntentSlotDataset.build] at h
    rw [if_neg hne] at h
    split at h
    · simp at h
    · split at h
      · simp at h
      · split at h
        · simp at h
        · simp at h
  · intro h
    subst h
    simp [BertJointIntentSlotDataset.build]

/-- Claim C9: constructing with sample count `-1` and shuffle disabled retains
every example and preserves the original line pairing order: the shuffle
oracle is never consulted, the parse of the `i`-th (slot line, input line)
pair provides the `i`-th stored intent, and the stored feature arrays are
exactly `get_features` of the queries and slot labels parsed in file order. -/
theorem C9_no_shuffle_preserves_order
    (input_lines slot_lines : List String) (max_seq_length : Nat) (tk : Tokenizer)
    (pad_label : Int) (orc : List (String × String) → List (String × String))
    (ds : BertJointIntentSlotDataset)
    (h : BertJointIntentSlotDataset.build input_lines slot_lines max_seq_length tk
        (-1) false pad_label orc = Except.ok ds) :
    slot_lines.length = (input_lines.drop 1).length
    ∧ ds.all_intents.length = (input_lines.drop 1).length
    ∧ ∃ parsed : List (List Int × String × Int),
        mapOption parse_example (slot_lines.zip (input_lines.drop 1)) = some parsed
        ∧ ds.all_intents = parsed.map (fun t => t.2.2)
        ∧ get_features (parsed.map fun t => t.2.1) max_seq_length tk pad_label
            (some (parsed.map fun t => t.1))
          = some { all_input_ids := ds.all_input_ids
                   all_segment_ids := ds.all_segment_ids
                   all_input_masks := ds.all_input_masks
                   all_slot_masks := ds.all_slot_masks
                   all_slots := ds.all_slots }
        ∧ ∀ i, i < (input_lines.drop 1).length →
            ∃ pr t, (slot_lines.zip (input_lines.drop 1))[i]? = some pr
              ∧ parse_example pr = some t
              ∧ ds.all_intents[i]? = some t.2.2 := by
  simp only [BertJointIntentSlotDataset.build] at h
  rw [if_neg (by decide : ¬ ((-1 : Int) = 0))] at h
  rw [if_neg (by simp : ¬ (false = true ∨ (-1 : Int) > 0))] at h
  rw [if_neg (by decide : ¬ ((-1 : Int) > 0))] at h
  by_cases hassert : slot_lines.length ≠ (input_lines.drop 1).length
  · rw [if_pos hassert] at h
    simp at h
  · rw [if_neg hassert] at h
    push_neg at hassert
    split at h
    · simp at h
    · rename_i parsed hparse
      split at h
      · simp at h
      · rename_i f hfeat
        obtain rfl := Except.ok.inj h
        have hplen : parsed.length = (slot_lines.zip (input_lines.drop 1)).length :=
          mapOption_length hparse
        have hziplen : (slot_lines.zip (input_lines.drop 1)).length
            = (input_lines.drop 1).length := by
          rw [List.length_zip]
          omega
        refine ⟨hassert, ?_, parsed, hparse, rfl, ?_, ?_⟩
        · simp only [List.length_map]
          omega
        · exact hfeat
        · intro i hi
          have hi' : i < (slot_lines.zip (input_lines.drop 1)).length := by omega
          obtain ⟨pr, t, hpr, hpt, hyt⟩ := mapOption_getElem? hparse hi'
          exact ⟨pr, t, hpr, hpt, by simp only [List.getElem?_map, hyt, Option.map_some']⟩

/-- Witness for C9: a three-line input file (header plus two records) and a
two-line slot file; construction succeeds and retains both examples in order. -/
theorem C9_witness :
    BertJointIntentSlotDataset.build ["sentence label", "hello 3", "bye 2"] ["7", "9"]
        10 tkLen (-1) false 128 (fun x => x) = Except.ok datasetC9
    ∧ datasetC9.all_intents.length = 2 := by
  have hb : BertJointIntentSlotDataset.build ["sentence label", "hello 3", "bye 2"]
      ["7", "9"] 10 tkLen (-1) false 128 (fun x => x) = Except.ok datasetC9 := rfl
  refine ⟨hb, ?_⟩
  have hlen := (C9_no_shuffle_preserves_order ["sentence label", "hello 3", "bye 2"]
    ["7", "9"] 10 tkLen 128 (fun x => x) datasetC9 hb).2.1
  simpa using hlen

end NemoNLP
